import Mathlib

/-!
# Verification of the Mainflux PostgreSQL message reader

A shallow embedding of `readers/postgres/messages.go` (the PostgreSQL
read-path adapter of the Mainflux message readers) together with proofs
about its condition builder (`fmtCondition`), its query construction and
its page orchestration (`ReadAll`).

Conventions of the embedding:
* Go `uint64` fields (`Limit`, `Offset`, the count total) are `Nat`.
* Go `float64` time/value fields are modelled as `Int`: the claims
  checked here concern only which comparison operators are emitted and
  evaluated (`>=` versus `<`), never floating-point rounding.
* Go's `(T, error)` returns become `Except GoErr T`, and `ReadAll`'s
  `(MessagesPage, error)` pair — whose error can be non-nil while the
  page is non-empty — becomes `MessagesPage π × Option GoErr`.
* The database driver (`sqlx`) is external; `ReadAll` is therefore
  parametrised by the outcomes of its two `NamedQuery` calls and of the
  per-row scans, and a second layer (`readAllDb`) instantiates those
  outcomes with the SQL semantics of `SELECT ... WHERE ... ORDER BY ...
  LIMIT ... OFFSET` / `SELECT COUNT(*)` over a concrete table.
* Go iterates the marshalled filter map with `for name := range query`,
  whose key order Go randomises; `fmtCondition` here takes that
  iteration order as an explicit `keys : List String` argument, and
  `marshalKeys` gives the canonical key set produced by marshalling.
-/

namespace PostgresReader

/-- Modelled from the spec: `readers.PageMetadata` (the request struct) lives
in the `readers` package, outside this source fragment. Field set and JSON
tag names follow spec sections 3 and 6: `format`, `subtopic`, `publisher`,
`name`, `protocol`, `v`, `vb`, `vs`, `vd`, `from`, `to`, `limit`, `offset`.
`Limit`/`Offset` are `uint64` (here `Nat`); value and time bounds are
`float64` (here `Int`, see the file header). -/
structure PageMetadata where
  Offset : Nat
  Limit : Nat
  Subtopic : String
  Publisher : String
  Protocol : String
  Name : String
  Value : Int
  BoolValue : Bool
  StringValue : String
  DataValue : String
  From : Int
  To : Int
  Format : String
  deriving DecidableEq

/-- The Go zero value `readers.PageMetadata{}`. -/
def PageMetadata.zero : PageMetadata :=
  { Offset := 0, Limit := 0, Subtopic := "", Publisher := "", Protocol := ""
    Name := "", Value := 0, BoolValue := false, StringValue := ""
    DataValue := "", From := 0, To := 0, Format := "" }

/-- Go `error` values as produced by the `pkg/errors` wrapping utility:
either a base error (`errors.New`, or an error coming out of the driver /
`encoding/json`) or `errors.Wrap(wrapper, cause)`. -/
inductive GoErr where
  | base (msg : String)
  | wrap (wrapper : GoErr) (cause : GoErr)
  deriving DecidableEq

/-- `var errReadMessages = errors.New("failed to read messages from postgres database")`. -/
def errReadMessages : GoErr :=
  GoErr.base "failed to read messages from postgres database"

/-- `e` is an error wrapped under the stable `errReadMessages` tag. -/
def isWrappedReadErr : GoErr → Bool
  | GoErr.wrap w _ => decide (w = errReadMessages)
  | _ => false

/-- `const defTable = "messages"`. -/
def defTable : String := "messages"

/-- The table the query runs against: `ReadAll` rewrites an empty
`rpm.Format` to `defTable` before interpolating it as the table name. -/
def effectiveFormat (f : String) : String :=
  if f = "" then defTable else f

/-- The `ORDER BY` column chosen by `ReadAll`:
`order := "created"; if rpm.Format == "" { order = "time"; ... }`. -/
def orderColumn (f : String) : String :=
  if f = "" then "time" else "created"

/-- The `AND` clause appended by the `switch name` inside `fmtCondition`
for a marshalled-map key, `none` for keys the switch ignores
(`format`, `limit`, `offset`, unknown keys). -/
def clauseFor (name : String) : Option String :=
  if name = "subtopic" ∨ name = "publisher" ∨ name = "name" ∨ name = "protocol" then
    some (" AND " ++ name ++ " = :" ++ name)
  else if name = "v" then some " AND value = :value"
  else if name = "vb" then some " AND bool_value = :bool_value"
  else if name = "vs" then some " AND string_value = :string_value"
  else if name = "vd" then some " AND data_value = :data_value"
  else if name = "from" then some " AND time >= :from"
  else if name = "to" then some " AND time < :to"
  else none

/-- `fmtCondition(chanID, rpm)`. `marshalOk` is whether `json.Marshal(rpm)`
succeeded (on failure Go returns the bare channel predicate early), and
`keys` is the iteration order of `for name := range query` over the
unmarshalled map — an arbitrary permutation of the marshalled key set,
since Go randomises map iteration. The Go parameter `chanID` is unused in
the body, exactly as in the source. -/
def fmtCondition (chanID : String) (marshalOk : Bool) (keys : List String) : String :=
  let condition := "channel = :channel"
  if marshalOk then
    keys.foldl
      (fun cond name =>
        match clauseFor name with
        | some c => cond ++ c
        | none => cond)
      condition
  else condition

/-- Modelled from the spec: the key set of `json.Marshal(rpm)` unmarshalled
into a generic map. Spec section 4.1: presence is "present in the generic
map", and a field whose zero value serialises to nothing is absent
(the serialiser's own omission rules), so each key appears exactly when the
field differs from its zero value. -/
def marshalKeys (rpm : PageMetadata) : List String :=
  (if rpm.Offset ≠ 0 then ["offset"] else []) ++
  (if rpm.Limit ≠ 0 then ["limit"] else []) ++
  (if rpm.Subtopic ≠ "" then ["subtopic"] else []) ++
  (if rpm.Publisher ≠ "" then ["publisher"] else []) ++
  (if rpm.Protocol ≠ "" then ["protocol"] else []) ++
  (if rpm.Name ≠ "" then ["name"] else []) ++
  (if rpm.Value ≠ 0 then ["v"] else []) ++
  (if rpm.BoolValue then ["vb"] else []) ++
  (if rpm.StringValue ≠ "" then ["vs"] else []) ++
  (if rpm.DataValue ≠ "" then ["vd"] else []) ++
  (if rpm.From ≠ 0 then ["from"] else []) ++
  (if rpm.To ≠ 0 then ["to"] else []) ++
  (if rpm.Format ≠ "" then ["format"] else [])

/-- The first query string built by `ReadAll`:
`fmt.Sprintf("SELECT * FROM %s\n    WHERE %s ORDER BY %s DESC\n\tLIMIT :limit OFFSET :offset;", rpm.Format, fmtCondition(chanID, rpm), order)`.
The table slot sees the already-defaulted format, the order column was
chosen from the original format. -/
def selectQuery (chanID : String) (rpm : PageMetadata) (marshalOk : Bool)
    (keys : List String) : String :=
  "SELECT * FROM " ++ effectiveFormat rpm.Format ++ "\n    WHERE " ++
    fmtCondition chanID marshalOk keys ++ " ORDER BY " ++ orderColumn rpm.Format ++
    " DESC\n\tLIMIT :limit OFFSET :offset;"

/-- The second query string built by `ReadAll`:
`fmt.Sprintf("SELECT COUNT(*) FROM %s WHERE %s;", rpm.Format, fmtCondition(chanID, rpm))`. -/
def countQuery (chanID : String) (rpm : PageMetadata) (marshalOk : Bool)
    (keys : List String) : String :=
  "SELECT COUNT(*) FROM " ++ effectiveFormat rpm.Format ++ " WHERE " ++
    fmtCondition chanID marshalOk keys ++ ";"

/-- Modelled from the spec: `senml.Message`, the typed (SenML) record from
`pkg/transformers/senml` — "channel, subtopic, publisher, protocol,
timestamp, numeric/boolean/string/binary value, metadata" (spec section 3).
Nullable value columns are `Option`s; times/values are `Int` per the file
header. -/
structure SenmlMessage where
  Channel : String
  Subtopic : String
  Publisher : String
  Protocol : String
  Name : String
  Unit : String
  Time : Int
  UpdateTime : Int
  Value : Option Int
  BoolValue : Option Bool
  StringValue : Option String
  DataValue : Option String
  Sum : Option Int
  deriving DecidableEq

/-- The `jsonMessage` row struct: columns
`id, channel, created, subtopic, publisher, protocol, payload`.
The payload column's raw bytes are kept as a `String`. -/
structure JsonMessageRow where
  id : String
  channel : String
  created : Int
  subtopic : String
  publisher : String
  protocol : String
  payload : String
  deriving DecidableEq

/-- The generic mapping produced by `jsonMessage.toMap` (its key set is
fixed, so it is a record here); `π` is the type of decoded JSON payload
objects, abstract because `encoding/json` and the flattening helper are
external collaborators. -/
structure GenericMessage (π : Type) where
  id : String
  channel : String
  created : Int
  subtopic : String
  publisher : String
  protocol : String
  payload : π
  deriving DecidableEq

/-- `readers.Message` is an `interface{}`: a page holds either typed SenML
records or generic mappings. -/
inductive Message (π : Type) where
  | senml (m : SenmlMessage)
  | generic (m : GenericMessage π)
  deriving DecidableEq

/-- `readers.MessagesPage`. -/
structure MessagesPage (π : Type) where
  pageMetadata : PageMetadata
  total : Nat
  messages : List (Message π)
  deriving DecidableEq

/-- The Go zero value `readers.MessagesPage{}` returned on the wrapped
error paths. -/
def emptyPage (π : Type) : MessagesPage π :=
  { pageMetadata := PageMetadata.zero, total := 0, messages := [] }

/-- One row handed back by the driver for the first query. `StructScan`
into either target struct may fail; each field is that scan's outcome. -/
structure DbRow where
  senmlScan : Except GoErr SenmlMessage
  jsonScan : Except GoErr JsonMessageRow

/-- `jsonMessage.toMap`: build the fixed-key mapping, `json.Unmarshal` the
payload bytes (`unmarshal` is the external `encoding/json` decoder), fail
if the payload is not valid JSON, else splice the decoded object in as
`payload`. -/
def JsonMessageRow.toMap {π : Type} (unmarshal : String → Except GoErr π)
    (msg : JsonMessageRow) : Except GoErr (GenericMessage π) :=
  match unmarshal msg.payload with
  | Except.error e => Except.error e
  | Except.ok pld =>
      Except.ok
        { id := msg.id, channel := msg.channel, created := msg.created
          subtopic := msg.subtopic, publisher := msg.publisher
          protocol := msg.protocol, payload := pld }

/-- The `case defTable` row loop of `ReadAll`: scan each row into a
`dbMessage` and collect the embedded SenML messages in order, stopping
with the scan error of the first row that fails. -/
def decodeSenmlRows {π : Type} : List DbRow → Except GoErr (List (Message π))
  | [] => Except.ok []
  | r :: rs =>
    match r.senmlScan with
    | Except.error e => Except.error e
    | Except.ok m =>
      match decodeSenmlRows rs with
      | Except.error e => Except.error e
      | Except.ok ms => Except.ok (Message.senml m :: ms)

/-- The `default` row loop of `ReadAll`: scan each row into a
`jsonMessage`, run `toMap`, replace the payload by
`jsont.ParseFlat(m["payload"])` (`parseFlat` is that external flattening
helper), and collect the mappings in order; the first failing row's error
stops the loop. -/
def decodeJsonRows {π : Type} (unmarshal : String → Except GoErr π)
    (parseFlat : π → π) : List DbRow → Except GoErr (List (Message π))
  | [] => Except.ok []
  | r :: rs =>
    match r.jsonScan with
    | Except.error e => Except.error e
    | Except.ok msg =>
      match msg.toMap unmarshal with
      | Except.error e => Except.error e
      | Except.ok m =>
        match decodeJsonRows unmarshal parseFlat rs with
        | Except.error e => Except.error e
        | Except.ok ms =>
            Except.ok (Message.generic { m with payload := parseFlat m.payload } :: ms)

/-- The driver-side outcomes of one `ReadAll` call: the first `NamedQuery`
either fails or yields rows; the count `NamedQuery` either fails or yields
a result set that is empty (`rows.Next()` false) or whose single scalar is
scanned by `rows.Scan(&total)`, which itself may fail. -/
structure DriverInput where
  selectOutcome : Except GoErr (List DbRow)
  countOutcome : Except GoErr (Option (Except GoErr Nat))

/-- `postgresRepository.ReadAll`, over the driver outcomes `db`.
Returns the Go pair `(readers.MessagesPage, error)` as
`MessagesPage π × Option GoErr`. Mirrors the source exactly: default the
format, run the first query, decode rows by format (each failure wrapped
under `errReadMessages` with the empty page), run the count query (failure
wrapped likewise), then `total := 0; if rows.Next() { if err := rows.Scan(&total); err != nil { return page, err } }`
— note that this last path returns the *unwrapped* scan error together
with the already-built page. `effectiveRpm` is the format-defaulting
prologue (`if rpm.Format == "" { ... rpm.Format = defTable }`). -/
def effectiveRpm (rpm : PageMetadata) : PageMetadata :=
  if rpm.Format = "" then { rpm with Format := defTable } else rpm

/-- The `switch rpm.Format` over the two row loops: the `case defTable`
loop for the (already defaulted) format `"messages"`, the `default` loop
otherwise. -/
def decodeRows {π : Type} (unmarshal : String → Except GoErr π) (parseFlat : π → π)
    (fmt : String) (rows : List DbRow) : Except GoErr (List (Message π)) :=
  if fmt = defTable then decodeSenmlRows rows
  else decodeJsonRows unmarshal parseFlat rows

def readAll {π : Type} (unmarshal : String → Except GoErr π) (parseFlat : π → π)
    (chanID : String) (rpm : PageMetadata) (db : DriverInput) :
    MessagesPage π × Option GoErr :=
  let rpm := effectiveRpm rpm
  match db.selectOutcome with
  | Except.error e => (emptyPage π, some (GoErr.wrap errReadMessages e))
  | Except.ok rows =>
    match decodeRows unmarshal parseFlat rpm.Format rows with
    | Except.error e => (emptyPage π, some (GoErr.wrap errReadMessages e))
    | Except.ok msgs =>
      let page : MessagesPage π :=
        { pageMetadata := rpm, total := 0, messages := msgs }
      match db.countOutcome with
      | Except.error e => (emptyPage π, some (GoErr.wrap errReadMessages e))
      | Except.ok none => ({ page with total := 0 }, none)
      | Except.ok (some (Except.error e)) => (page, some e)
      | Except.ok (some (Except.ok t)) => ({ page with total := t }, none)

/-- Modelled from the spec: one stored row, with the superset of the
columns named in spec section 6 (`id, channel, subtopic, publisher,
protocol, name, value, bool_value, string_value, data_value, time,
created`, plus the generic tables' `payload`). The database engine is an
external collaborator; this is its table model. -/
structure Row where
  id : String
  channel : String
  subtopic : String
  publisher : String
  protocol : String
  name : String
  value : Int
  bool_value : Bool
  string_value : String
  data_value : String
  time : Int
  created : Int
  payload : String
  deriving DecidableEq

/-- Modelled from the spec: the database engine's evaluation of the `AND`
clause that `fmtCondition` emits for key `name`, on row `r`, with the
named parameters bound from `rpm` as in `ReadAll`'s `params` map
(`:subtopic ↦ rpm.Subtopic`, ..., `:value ↦ rpm.Value`, `:from ↦ rpm.From`,
`:to ↦ rpm.To`). Keys for which no clause is emitted constrain nothing. -/
def evalClause (rpm : PageMetadata) (r : Row) (name : String) : Bool :=
  if name = "subtopic" then r.subtopic = rpm.Subtopic
  else if name = "publisher" then r.publisher = rpm.Publisher
  else if name = "name" then r.name = rpm.Name
  else if name = "protocol" then r.protocol = rpm.Protocol
  else if name = "v" then r.value = rpm.Value
  else if name = "vb" then r.bool_value = rpm.BoolValue
  else if name = "vs" then r.string_value = rpm.StringValue
  else if name = "vd" then r.data_value = rpm.DataValue
  else if name = "from" then rpm.From ≤ r.time
  else if name = "to" then r.time < rpm.To
  else true

/-- Modelled from the spec: the database engine's evaluation of the whole
`WHERE` predicate built by `fmtCondition`: the base `channel = :channel`
conjunct and every emitted `AND` clause. -/
def rowMatches (chanID : String) (rpm : PageMetadata) (keys : List String)
    (r : Row) : Bool :=
  (r.channel = chanID) && keys.all (evalClause rpm r)

/-- Modelled from the spec: the value of the `ORDER BY` column of a row. -/
def orderKey (col : String) (r : Row) : Int :=
  if col = "time" then r.time else r.created

/-- Modelled from the spec: insert a row into a list sorted descending on
`key`, keeping it sorted. -/
def insertDesc (key : Row → Int) (r : Row) : List Row → List Row
  | [] => [r]
  | a :: l => if key a ≤ key r then r :: a :: l else a :: insertDesc key r l

/-- Modelled from the spec: sort rows descending on `key` (insertion
sort; any `ORDER BY ... DESC` implementation returns some descending
permutation, and only the multiset of rows matters to the claims). -/
def sortDesc (key : Row → Int) : List Row → List Row
  | [] => []
  | a :: l => insertDesc key a (sortDesc key l)

/-- Modelled from the spec: the database engine's execution of
`SELECT * FROM t WHERE cond ORDER BY col DESC LIMIT :limit OFFSET :offset`:
filter by the predicate, sort descending on the order column, skip
`Offset` rows, return at most `Limit` rows. -/
def runSelect (table : List Row) (chanID : String) (rpm : PageMetadata)
    (keys : List String) : List Row :=
  (((sortDesc (orderKey (orderColumn rpm.Format))
      (table.filter (rowMatches chanID rpm keys))).drop
        rpm.Offset).take rpm.Limit)

/-- Modelled from the spec: the database engine's execution of
`SELECT COUNT(*) FROM t WHERE cond`: the number of rows matching the
predicate, independent of limit and offset. -/
def runCount (table : List Row) (chanID : String) (rpm : PageMetadata)
    (keys : List String) : Nat :=
  (table.filter (rowMatches chanID rpm keys)).length

/-- Modelled from the spec: the driver's `StructScan` of a stored row into
each of the two target structs — the direct column-to-field mapping of
spec sections 4.3 and 4.4. -/
def rowToDbRow (r : Row) : DbRow :=
  { senmlScan :=
      Except.ok
        { Channel := r.channel, Subtopic := r.subtopic, Publisher := r.publisher
          Protocol := r.protocol, Name := r.name, Unit := ""
          Time := r.time, UpdateTime := 0, Value := some r.value
          BoolValue := some r.bool_value, StringValue := some r.string_value
          DataValue := some r.data_value, Sum := none }
    jsonScan :=
      Except.ok
        { id := r.id, channel := r.channel, created := r.created
          subtopic := r.subtopic, publisher := r.publisher
          protocol := r.protocol, payload := r.payload } }

/-- `ReadAll` with both driver outcomes produced by the database-engine
model running the two queries over a concrete `table` (`keys` is the map
iteration order used by both `fmtCondition` calls). -/
def readAllDb {π : Type} (unmarshal : String → Except GoErr π) (parseFlat : π → π)
    (chanID : String) (rpm : PageMetadata) (keys : List String)
    (table : List Row) : MessagesPage π × Option GoErr :=
  readAll unmarshal parseFlat chanID rpm
    { selectOutcome := Except.ok ((runSelect table chanID rpm keys).map rowToDbRow)
      countOutcome := Except.ok (some (Except.ok (runCount table chanID rpm keys))) }

/-- A row on which the `default` row loop fails: its `jsonMessage` scan
fails, or its payload bytes are not valid JSON. -/
def jsonRowFails {π : Type} (unmarshal : String → Except GoErr π) (r : DbRow) : Bool :=
  match r.jsonScan with
  | Except.error _ => true
  | Except.ok jm =>
    match unmarshal jm.payload with
    | Except.error _ => true
    | Except.ok _ => false

/-- A request whose marshalled key set is `["subtopic", "publisher"]`. -/
def rpmSubPub : PageMetadata :=
  { PageMetadata.zero with Subtopic := "s", Publisher := "p" }

/-- A SenML message as it comes out of a successful row scan. -/
def senmlMsgEx : SenmlMessage :=
  { Channel := "ch", Subtopic := "", Publisher := "", Protocol := ""
    Name := "", Unit := "", Time := 0, UpdateTime := 0, Value := none
    BoolValue := none, StringValue := none, DataValue := none, Sum := none }

/-- A driver row whose SenML scan succeeds. -/
def dbRowEx : DbRow :=
  { senmlScan := Except.ok senmlMsgEx, jsonScan := Except.error (GoErr.base "no json") }

/-- A generic-table row whose payload bytes are not valid JSON under
`unmarshalW`. -/
def jmEx : JsonMessageRow :=
  { id := "i", channel := "ch", created := 7, subtopic := "t"
    publisher := "p", protocol := "mqtt", payload := "not-json" }

/-- A driver row for the generic loop carrying `jmEx`. -/
def dbRowJsonEx : DbRow :=
  { senmlScan := Except.error (GoErr.base "no senml"), jsonScan := Except.ok jmEx }

/-- A concrete `encoding/json` decoder: every payload decodes to `0`
except the bytes `"not-json"`, which fail. -/
def unmarshalW : String → Except GoErr Nat := fun s =>
  if s = "not-json" then Except.error (GoErr.base "invalid character") else Except.ok 0

/-- A successful-select, successful-count driver input with one SenML row. -/
def dbW : DriverInput :=
  { selectOutcome := Except.ok [dbRowEx]
    countOutcome := Except.ok (some (Except.ok 1)) }

/-- A stored row on channel `"ch"`. -/
def rowW : Row :=
  { id := "i", channel := "ch", subtopic := "t", publisher := "p"
    protocol := "mqtt", name := "n", value := 1, bool_value := false
    string_value := "", data_value := "", time := 3, created := 4
    payload := "x" }

/-- A request with limit 1 and no filters. -/
def rpmLimW : PageMetadata := { PageMetadata.zero with Limit := 1 }

theorem foldl_append_join (l : List String) (c : String) :
    l.foldl (fun r s => r ++ s) c = c ++ String.join l := by
  induction l generalizing c with
  | nil => simp [String.join]
  | cons a l ih =>
    show l.foldl _ (c ++ a) = _
    rw [ih (c ++ a), String.append_assoc]
    have hj : String.join (a :: l) = a ++ String.join l := by
      show (a :: l).foldl _ "" = _
      rw [List.foldl_cons, ih ("" ++ a)]
      simp
    rw [hj]

theorem join_cons (a : String) (l : List String) :
    String.join (a :: l) = a ++ String.join l := by
  show (a :: l).foldl _ "" = _
  rw [List.foldl_cons, foldl_append_join l ("" ++ a)]
  simp

theorem fmtCondition_eq_join (chanID : String) (keys : List String) :
    fmtCondition chanID true keys =
      "channel = :channel" ++ String.join (keys.filterMap clauseFor) := by
  suffices h : ∀ (acc : String) (ks : List String),
      ks.foldl
        (fun cond name =>
          match clauseFor name with
          | some c => cond ++ c
          | none => cond)
        acc = acc ++ String.join (ks.filterMap clauseFor) by
    simpa [fmtCondition] using h "channel = :channel" keys
  intro acc ks
  induction ks generalizing acc with
  | nil => simp [String.join]
  | cons k ks ih =>
    cases hk : clauseFor k with
    | none => simp [List.filterMap_cons, hk, ih]
    | some c =>
      simp only [List.foldl_cons, List.filterMap_cons, hk, ih, join_cons]
      rw [String.append_assoc]

theorem listInfix_extendLeft {α : Type} (p : List α) {m l : List α}
    (h : m <:+: l) : m <:+: p ++ l := by
  obtain ⟨x, y, hxy⟩ := h
  exact ⟨p ++ x, y, by rw [← hxy]; simp⟩

theorem infix_of_mem_join (c : String) (l : List String) (h : c ∈ l) :
    c.data <:+: (String.join l).data := by
  induction l with
  | nil => cases h
  | cons a l ih =>
    rw [join_cons, String.data_append]
    rcases List.mem_cons.mp h with h1 | h2
    · exact ⟨[], (String.join l).data, by simp [h1]⟩
    · exact listInfix_extendLeft a.data (ih h2)

theorem clause_infix_of_mem (chanID : String) (keys : List String)
    (name c : String) (hm : name ∈ keys) (hc : clauseFor name = some c) :
    c.data <:+: (fmtCondition chanID true keys).data := by
  rw [fmtCondition_eq_join, String.data_append]
  exact listInfix_extendLeft _
    (infix_of_mem_join c _ (List.mem_filterMap.mpr ⟨name, hm, hc⟩))

theorem effectiveRpm_eq (rpm : PageMetadata) :
    effectiveRpm rpm = { rpm with Format := effectiveFormat rpm.Format } := by
  unfold effectiveRpm effectiveFormat
  split
  · rfl
  · rfl

theorem effectiveRpm_format (rpm : PageMetadata) :
    (effectiveRpm rpm).Format = effectiveFormat rpm.Format := by
  rw [effectiveRpm_eq]

theorem insertDesc_length (key : Row → Int) (r : Row) (l : List Row) :
    (insertDesc key r l).length = l.length + 1 := by
  induction l with
  | nil => rfl
  | cons a l ih =>
    unfold insertDesc
    split
    · simp
    · simp [ih]

theorem sortDesc_length (key : Row → Int) (l : List Row) :
    (sortDesc key l).length = l.length := by
  induction l with
  | nil => rfl
  | cons a l ih =>
    unfold sortDesc
    rw [insertDesc_length, ih, List.length_cons]

theorem decodeSenmlRows_ok {π : Type} (rows : List DbRow) (msgs : List (Message π))
    (h : decodeSenmlRows rows = Except.ok msgs) :
    msgs.length = rows.length ∧ ∀ m ∈ msgs, ∃ s, m = Message.senml s := by
  induction rows generalizing msgs with
  | nil =>
    simp only [decodeSenmlRows] at h
    cases h
    simp
  | cons r rs ih =>
    simp only [decodeSenmlRows] at h
    cases hscan : r.senmlScan with
    | error e => rw [hscan] at h; cases h
    | ok m =>
      rw [hscan] at h
      cases hrec : decodeSenmlRows (π := π) rs with
      | error e => rw [hrec] at h; cases h
      | ok ms =>
        rw [hrec] at h
        cases h
        obtain ⟨hlen, hshape⟩ := ih ms hrec
        refine ⟨by simp [hlen], ?_⟩
        intro x hx
        rcases List.mem_cons.mp hx with h1 | h2
        · exact ⟨m, h1⟩
        · exact hshape x h2

theorem decodeJsonRows_ok {π : Type} (unmarshal : String → Except GoErr π)
    (parseFlat : π → π) (rows : List DbRow) (msgs : List (Message π))
    (h : decodeJsonRows unmarshal parseFlat rows = Except.ok msgs) :
    msgs.length = rows.length ∧
    ∀ m ∈ msgs, ∃ r, r ∈ rows ∧ ∃ jm p,
      r.jsonScan = Except.ok jm ∧ unmarshal jm.payload = Except.ok p ∧
      m = Message.generic
        { id := jm.id, channel := jm.channel, created := jm.created
          subtopic := jm.subtopic, publisher := jm.publisher
          protocol := jm.protocol, payload := parseFlat p } := by
  induction rows generalizing msgs with
  | nil =>
    simp only [decodeJsonRows] at h
    cases h
    simp
  | cons r rs ih =>
    simp only [decodeJsonRows] at h
    cases hscan : r.jsonScan with
    | error e => rw [hscan] at h; cases h
    | ok jm =>
      rw [hscan] at h
      cases hum : unmarshal jm.payload with
      | error e => simp only [JsonMessageRow.toMap, hum] at h; cases h
      | ok p =>
        simp only [JsonMessageRow.toMap, hum] at h
        cases hrec : decodeJsonRows unmarshal parseFlat rs with
        | error e => rw [hrec] at h; cases h
        | ok ms =>
          rw [hrec] at h
          cases h
          obtain ⟨hlen, hshape⟩ := ih ms hrec
          refine ⟨by simp [hlen], ?_⟩
          intro x hx
          rcases List.mem_cons.mp hx with h1 | h2
          · exact ⟨r, List.mem_cons_self r rs, jm, p, hscan, hum, h1⟩
          · obtain ⟨r2, hr2, rest⟩ := hshape x h2
            exact ⟨r2, List.mem_cons_of_mem r hr2, rest⟩

theorem decodeJsonRows_fails {π : Type} (unmarshal : String → Except GoErr π)
    (parseFlat : π → π) (rows : List DbRow) (r : DbRow) (hr : r ∈ rows)
    (hfail : jsonRowFails unmarshal r = true) :
    ∃ e, decodeJsonRows unmarshal parseFlat rows = Except.error e := by
  induction rows with
  | nil => cases hr
  | cons a rs ih =>
    simp only [decodeJsonRows]
    cases hscan : a.jsonScan with
    | error e => exact ⟨e, rfl⟩
    | ok jm =>
      cases hum : unmarshal jm.payload with
      | error e => exact ⟨e, by simp [JsonMessageRow.toMap, hum]⟩
      | ok p =>
        rcases List.mem_cons.mp hr with h1 | h2
        · subst h1
          simp only [jsonRowFails, hscan, hum] at hfail
          cases hfail
        · obtain ⟨e, he⟩ := ih h2
          exact ⟨e, by simp [JsonMessageRow.toMap, hum, he]⟩

/-- C1 (counterexample): the claim has the two order columns swapped. At
the concrete call with an empty requested format, the built SELECT query
orders by `time`, not by `created`: `ReadAll` initialises the order column
to `created` and switches it to `time` precisely when the format is empty. -/
theorem selectQuery_order_swapped :
    orderColumn "" = "time" ∧ orderColumn "json" = "created" ∧
    selectQuery "ch" PageMetadata.zero true [] =
      "SELECT * FROM messages\n    WHERE channel = :channel ORDER BY time DESC\n\tLIMIT :limit OFFSET :offset;" ∧
    ("time" : String) ≠ "created" := by
  decide

/-- C1 (amended): for every call to `ReadAll`, when the requested format
is empty the SELECT query orders rows descending by the timestamp column
`time`, and when an explicit format is requested it orders rows descending
by the insertion-order column `created`. -/
theorem selectQuery_order_column (chanID : String) (rpm : PageMetadata)
    (marshalOk : Bool) (keys : List String) :
    (rpm.Format = "" →
      (" ORDER BY time DESC").data <:+: (selectQuery chanID rpm marshalOk keys).data) ∧
    (rpm.Format ≠ "" →
      (" ORDER BY created DESC").data <:+: (selectQuery chanID rpm marshalOk keys).data) := by
  constructor
  · intro hf
    have h1 : selectQuery chanID rpm marshalOk keys =
        "SELECT * FROM " ++ (effectiveFormat rpm.Format ++ ("\n    WHERE " ++
          (fmtCondition chanID marshalOk keys ++
            (" ORDER BY " ++ ("time" ++ " DESC\n\tLIMIT :limit OFFSET :offset;"))))) := by
      simp [selectQuery, orderColumn, hf, String.append_assoc]
    rw [h1, String.data_append, String.data_append, String.data_append, String.data_append]
    apply listInfix_extendLeft
    apply listInfix_extendLeft
    apply listInfix_extendLeft
    apply listInfix_extendLeft
    decide
  · intro hf
    have h1 : selectQuery chanID rpm marshalOk keys =
        "SELECT * FROM " ++ (effectiveFormat rpm.Format ++ ("\n    WHERE " ++
          (fmtCondition chanID marshalOk keys ++
            (" ORDER BY " ++ ("created" ++ " DESC\n\tLIMIT :limit OFFSET :offset;"))))) := by
      simp [selectQuery, orderColumn, hf, String.append_assoc]
    rw [h1, String.data_append, String.data_append, String.data_append, String.data_append]
    apply listInfix_extendLeft
    apply listInfix_extendLeft
    apply listInfix_extendLeft
    apply listInfix_extendLeft
    decide

/-- Witness for `selectQuery_order_column` at two concrete calls, one with
an empty format and one with format `"json"`. -/
theorem selectQuery_order_column_witness :
    ((" ORDER BY time DESC").data <:+:
        (selectQuery "ch" PageMetadata.zero true []).data) ∧
    ((" ORDER BY created DESC").data <:+:
        (selectQuery "ch" { PageMetadata.zero with Format := "json" } true []).data) :=
  ⟨(selectQuery_order_column "ch" PageMetadata.zero true []).1 rfl,
   (selectQuery_order_column "ch" { PageMetadata.zero with Format := "json" } true []).2
     (by decide)⟩

/-- C3 (counterexample): the order of the `AND` clauses is not fixed. The
condition builder iterates the marshalled filter map with
`for name := range query`, and Go randomises map iteration order: for the
concrete request with subtopic and publisher set, the two possible
iteration orders of the same key set produce different predicates, so the
clause order is not "the same on every run for the same input". -/
theorem fmtCondition_order_not_fixed :
    (["subtopic", "publisher"] : List String).Perm (marshalKeys rpmSubPub) ∧
    (["publisher", "subtopic"] : List String).Perm (marshalKeys rpmSubPub) ∧
    fmtCondition "ch" true ["subtopic", "publisher"] ≠
      fmtCondition "ch" true ["publisher", "subtopic"] := by
  decide

/-- C3 (amended): for every filter request and every iteration order of
the marshalled key set, the predicate AND-combines exactly the filters
that are present — it is `channel = :channel` followed by one clause per
present filter key, and that clause list is a permutation of the clauses
of the canonical key enumeration — but the order of the `AND` clauses
follows the map iteration order, which Go does not fix. -/
theorem fmtCondition_combines_present (chanID : String) (rpm : PageMetadata)
    (keys : List String) (h : keys.Perm (marshalKeys rpm)) :
    fmtCondition chanID true keys =
      "channel = :channel" ++ String.join (keys.filterMap clauseFor) ∧
    (keys.filterMap clauseFor).Perm ((marshalKeys rpm).filterMap clauseFor) :=
  ⟨fmtCondition_eq_join chanID keys, h.filterMap clauseFor⟩

/-- Witness for `fmtCondition_combines_present` at a concrete request with
subtopic and publisher set, iterated in the order `publisher, subtopic`. -/
theorem fmtCondition_combines_present_witness :
    fmtCondition "ch" true ["publisher", "subtopic"] =
      "channel = :channel" ++
        String.join ((["publisher", "subtopic"] : List String).filterMap clauseFor) ∧
    ((["publisher", "subtopic"] : List String).filterMap clauseFor).Perm
      ((marshalKeys rpmSubPub).filterMap clauseFor) :=
  fmtCondition_combines_present "ch" rpmSubPub ["publisher", "subtopic"] (by decide)

/-- C5: whenever the lower time bound key is present the predicate
contains ` AND time >= :from`, and whenever the upper bound key is present
it contains ` AND time < :to`; semantically the range is half-open — a row
whose time equals `from` satisfies the lower-bound clause, and a row whose
time equals `to` fails the whole predicate when the upper bound is
present. -/
theorem time_range_half_open (chanID : String) (rpm : PageMetadata)
    (keys : List String) (r : Row) :
    ("from" ∈ keys →
      (" AND time >= :from").data <:+: (fmtCondition chanID true keys).data) ∧
    ("to" ∈ keys →
      (" AND time < :to").data <:+: (fmtCondition chanID true keys).data) ∧
    (r.time = rpm.From → evalClause rpm r "from" = true) ∧
    ("to" ∈ keys → r.time = rpm.To → rowMatches chanID rpm keys r = false) := by
  refine ⟨fun hm => clause_infix_of_mem chanID keys "from" _ hm (by decide),
          fun hm => clause_infix_of_mem chanID keys "to" _ hm (by decide),
          fun ht => by simp [evalClause, ht],
          fun hm ht => ?_⟩
  by_contra hne
  have hmt : rowMatches chanID rpm keys r = true := by
    cases hb : rowMatches chanID rpm keys r
    · exact absurd hb hne
    · rfl
  have hall := (Bool.and_eq_true _ _).mp hmt
  have hclause := List.all_eq_true.mp hall.2 "to" hm
  simp only [evalClause] at hclause
  simp [ht] at hclause

/-- Witness for `time_range_half_open` at a concrete request with both
bounds present and a row sitting exactly on each bound. -/
theorem time_range_half_open_witness :
    ((" AND time >= :from").data <:+:
        (fmtCondition "ch" true ["from", "to"]).data) ∧
    (evalClause { PageMetadata.zero with From := 5, To := 9 }
        { id := "i", channel := "ch", subtopic := "", publisher := ""
          protocol := "", name := "", value := 0, bool_value := false
          string_value := "", data_value := "", time := 5, created := 0
          payload := "" } "from" = true) ∧
    (rowMatches "ch" { PageMetadata.zero with From := 5, To := 9 } ["from", "to"]
        { id := "i", channel := "ch", subtopic := "", publisher := ""
          protocol := "", name := "", value := 0, bool_value := false
          string_value := "", data_value := "", time := 9, created := 0
          payload := "" } = false) :=
  ⟨(time_range_half_open "ch" PageMetadata.zero ["from", "to"]
      { id := "i", channel := "ch", subtopic := "", publisher := ""
        protocol := "", name := "", value := 0, bool_value := false
        string_value := "", data_value := "", time := 0, created := 0
        payload := "" }).1 (by decide),
   (time_range_half_open "ch" { PageMetadata.zero with From := 5, To := 9 } []
      { id := "i", channel := "ch", subtopic := "", publisher := ""
        protocol := "", name := "", value := 0, bool_value := false
        string_value := "", data_value := "", time := 5, created := 0
        payload := "" }).2.2.1 rfl,
   (time_range_half_open "ch" { PageMetadata.zero with From := 5, To := 9 }
      ["from", "to"]
      { id := "i", channel := "ch", subtopic := "", publisher := ""
        protocol := "", name := "", value := 0, bool_value := false
        string_value := "", data_value := "", time := 9, created := 0
        payload := "" }).2.2.2 (by decide) rfl⟩

/-- C6: the predicate built by the condition builder always extends the
base `channel = :channel` conjunct, and when serialisation of the filter
struct fails it is exactly the unconditional `channel = :channel`
predicate, with no error surfaced (the builder's return type has no error
component at all). -/
theorem fmtCondition_always_channel (chanID : String) (marshalOk : Bool)
    (keys : List String) :
    fmtCondition chanID false keys = "channel = :channel" ∧
    ∃ rest : String,
      fmtCondition chanID marshalOk keys = "channel = :channel" ++ rest := by
  refine ⟨rfl, ?_⟩
  cases marshalOk
  · exact ⟨"", by simp [fmtCondition]⟩
  · exact ⟨String.join (keys.filterMap clauseFor), fmtCondition_eq_join chanID keys⟩

/-- C2 (counterexample): at the concrete call where the first query
returns one well-formed row and the count query's scalar scan fails,
`ReadAll` returns the scan error bare — not wrapped under the
"failed to read messages" tag — and returns the already-decoded page of
one message alongside that error. -/
theorem readAll_count_scan_unwrapped :
    readAll (π := Nat) (fun _ => Except.ok 0) id "ch" PageMetadata.zero
      { selectOutcome := Except.ok [dbRowEx]
        countOutcome := Except.ok (some (Except.error (GoErr.base "scan failure"))) } =
      ({ pageMetadata := { PageMetadata.zero with Format := "messages" }
         total := 0, messages := [Message.senml senmlMsgEx] },
        some (GoErr.base "scan failure")) ∧
    isWrappedReadErr (GoErr.base "scan failure") = false ∧
    ([Message.senml senmlMsgEx] : List (Message Nat)) ≠ [] := by
  decide

/-- C2 (amended): every failure of `ReadAll` except a count-scalar scan
failure is surfaced wrapped under the stable "failed to read messages"
tag with the empty page (no partial results); a failure to scan the count
scalar, however, is returned unwrapped, together with the already-decoded
page of messages. -/
theorem readAll_error_wrapping {π : Type} (unmarshal : String → Except GoErr π)
    (parseFlat : π → π) (chanID : String) (rpm : PageMetadata)
    (db : DriverInput) (pg : MessagesPage π) (e : GoErr)
    (h : readAll unmarshal parseFlat chanID rpm db = (pg, some e)) :
    (isWrappedReadErr e = true ∧ pg = emptyPage π) ∨
    (db.countOutcome = Except.ok (some (Except.error e))) := by
  obtain ⟨so, co⟩ := db
  cases so with
  | error e1 =>
    simp only [readAll, Prod.mk.injEq, Option.some.injEq] at h
    exact Or.inl ⟨by simp [← h.2, isWrappedReadErr], h.1.symm⟩
  | ok rows =>
    cases hdec : decodeRows unmarshal parseFlat (effectiveRpm rpm).Format rows with
    | error e1 =>
      simp only [readAll, hdec, Prod.mk.injEq, Option.some.injEq] at h
      exact Or.inl ⟨by simp [← h.2, isWrappedReadErr], h.1.symm⟩
    | ok msgs =>
      cases co with
      | error e1 =>
        simp only [readAll, hdec, Prod.mk.injEq, Option.some.injEq] at h
        exact Or.inl ⟨by simp [← h.2, isWrappedReadErr], h.1.symm⟩
      | ok copt =>
        cases copt with
        | none => simp only [readAll, hdec, Prod.mk.injEq] at h; cases h.2
        | some cres =>
          cases cres with
          | error e1 =>
            simp only [readAll, hdec, Prod.mk.injEq, Option.some.injEq] at h
            exact Or.inr (by rw [h.2])
          | ok t => simp only [readAll, hdec, Prod.mk.injEq] at h; cases h.2

/-- Witness for `readAll_error_wrapping` at a concrete call whose first
query fails. -/
theorem readAll_error_wrapping_witness :
    (isWrappedReadErr (GoErr.wrap errReadMessages (GoErr.base "boom")) = true ∧
      (emptyPage Nat) = emptyPage Nat) ∨
    (({ selectOutcome := Except.error (GoErr.base "boom")
        countOutcome := Except.ok none } : DriverInput).countOutcome =
      Except.ok (some (Except.error (GoErr.wrap errReadMessages (GoErr.base "boom"))))) :=
  readAll_error_wrapping (fun _ => Except.ok 0) id "ch" PageMetadata.zero
    { selectOutcome := Except.error (GoErr.base "boom")
      countOutcome := Except.ok none }
    (emptyPage Nat) (GoErr.wrap errReadMessages (GoErr.base "boom")) (by decide)

/-- C4 (counterexample): at the concrete successful call with an empty
requested format, the returned page metadata is not the input metadata:
`ReadAll` overwrites the empty format selector with the default table name
`"messages"` before echoing the metadata. -/
theorem readAll_format_rewritten :
    readAll (π := Nat) (fun _ => Except.ok 0) id "ch" PageMetadata.zero
      { selectOutcome := Except.ok []
        countOutcome := Except.ok (some (Except.ok 0)) } =
      ({ pageMetadata := { PageMetadata.zero with Format := "messages" }
         total := 0, messages := [] }, none) ∧
    ({ PageMetadata.zero with Format := "messages" } : PageMetadata) ≠
      PageMetadata.zero := by
  decide

/-- C4 (amended): for every call to `ReadAll` that succeeds, the returned
page echoes the input page metadata unchanged except for the format
selector, which is echoed as passed when non-empty but comes back as the
default table name `"messages"` when the caller passed it empty. -/
theorem readAll_echoes_metadata {π : Type} (unmarshal : String → Except GoErr π)
    (parseFlat : π → π) (chanID : String) (rpm : PageMetadata)
    (db : DriverInput) (pg : MessagesPage π)
    (h : readAll unmarshal parseFlat chanID rpm db = (pg, none)) :
    pg.pageMetadata = { rpm with Format := effectiveFormat rpm.Format } ∧
    (rpm.Format ≠ "" → pg.pageMetadata = rpm) := by
  have hmeta : pg.pageMetadata = effectiveRpm rpm := by
    obtain ⟨so, co⟩ := db
    cases so with
    | error e1 => simp only [readAll, Prod.mk.injEq] at h; cases h.2
    | ok rows =>
      cases hdec : decodeRows unmarshal parseFlat (effectiveRpm rpm).Format rows with
      | error e1 => simp only [readAll, hdec, Prod.mk.injEq] at h; cases h.2
      | ok msgs =>
        cases co with
        | error e1 => simp only [readAll, hdec, Prod.mk.injEq] at h; cases h.2
        | ok copt =>
          cases copt with
          | none =>
            simp only [readAll, hdec, Prod.mk.injEq] at h
            rw [← h.1]
          | some cres =>
            cases cres with
            | error e1 => simp only [readAll, hdec, Prod.mk.injEq] at h; cases h.2
            | ok t =>
              simp only [readAll, hdec, Prod.mk.injEq] at h
              rw [← h.1]
  refine ⟨hmeta.trans (effectiveRpm_eq rpm), fun hf => ?_⟩
  rw [hmeta]
  unfold effectiveRpm
  simp [hf]

/-- Witness for `readAll_echoes_metadata` at a concrete successful call
with format `"json"`. -/
theorem readAll_echoes_metadata_witness :
    ((readAll (π := Nat) (fun _ => Except.ok 0) id "ch"
        { PageMetadata.zero with Format := "json" }
        { selectOutcome := Except.ok []
          countOutcome := Except.ok (some (Except.ok 0)) }).1).pageMetadata =
      { ({ PageMetadata.zero with Format := "json" } : PageMetadata) with
          Format := effectiveFormat "json" } ∧
    (("json" : String) ≠ "" →
      ((readAll (π := Nat) (fun _ => Except.ok 0) id "ch"
          { PageMetadata.zero with Format := "json" }
          { selectOutcome := Except.ok []
            countOutcome := Except.ok (some (Except.ok 0)) }).1).pageMetadata =
        { PageMetadata.zero with Format := "json" }) :=
  readAll_echoes_metadata (fun _ => Except.ok 0) id "ch"
    { PageMetadata.zero with Format := "json" }
    { selectOutcome := Except.ok []
      countOutcome := Except.ok (some (Except.ok 0)) }
    (readAll (π := Nat) (fun _ => Except.ok 0) id "ch"
        { PageMetadata.zero with Format := "json" }
        { selectOutcome := Except.ok []
          countOutcome := Except.ok (some (Except.ok 0)) }).1 (by decide)

/-- C7: for every generic-format read in which some returned row's payload
column is not valid JSON, the whole call fails — wrapped under the
"failed to read messages" tag — and the empty page (zero messages) is
returned. -/
theorem readAll_invalid_payload_fails {π : Type} (unmarshal : String → Except GoErr π)
    (parseFlat : π → π) (chanID : String) (rpm : PageMetadata)
    (db : DriverInput) (rows : List DbRow) (r : DbRow) (jm : JsonMessageRow) (e : GoErr)
    (hfmt1 : rpm.Format ≠ "") (hfmt2 : rpm.Format ≠ defTable)
    (hsel : db.selectOutcome = Except.ok rows)
    (hr : r ∈ rows) (hscan : r.jsonScan = Except.ok jm)
    (hbad : unmarshal jm.payload = Except.error e) :
    ∃ e2, readAll unmarshal parseFlat chanID rpm db =
      (emptyPage π, some (GoErr.wrap errReadMessages e2)) ∧
      (emptyPage π).messages = [] := by
  have hfail : jsonRowFails unmarshal r = true := by
    simp [jsonRowFails, hscan, hbad]
  obtain ⟨e2, he2⟩ := decodeJsonRows_fails unmarshal parseFlat rows r hr hfail
  have hdec : decodeRows unmarshal parseFlat (effectiveRpm rpm).Format rows =
      Except.error e2 := by
    unfold decodeRows
    rw [effectiveRpm_format]
    unfold effectiveFormat
    rw [if_neg hfmt1, if_neg hfmt2]
    exact he2
  obtain ⟨so, co⟩ := db
  obtain rfl : so = Except.ok rows := hsel
  refine ⟨e2, ?_, rfl⟩
  simp only [readAll, hdec]

/-- Helper: on a successful `ReadAll` call, the returned messages are
exactly the output of the format-selected decode loop on the fetched
rows. -/
theorem readAll_success_messages {π : Type} (unmarshal : String → Except GoErr π)
    (parseFlat : π → π) (chanID : String) (rpm : PageMetadata)
    (db : DriverInput) (rows : List DbRow) (pg : MessagesPage π)
    (hsel : db.selectOutcome = Except.ok rows)
    (h : readAll unmarshal parseFlat chanID rpm db = (pg, none)) :
    decodeRows unmarshal parseFlat (effectiveRpm rpm).Format rows =
      Except.ok pg.messages := by
  obtain ⟨so, co⟩ := db
  obtain rfl : so = Except.ok rows := hsel
  cases hdec : decodeRows unmarshal parseFlat (effectiveRpm rpm).Format rows with
  | error e => simp only [readAll, hdec, Prod.mk.injEq] at h; cases h.2
  | ok msgs =>
    cases co with
    | error e1 => simp only [readAll, hdec, Prod.mk.injEq] at h; cases h.2
    | ok copt =>
      cases copt with
      | none =>
        simp only [readAll, hdec, Prod.mk.injEq] at h
        rw [← h.1]
      | some cres =>
        cases cres with
        | error e1 => simp only [readAll, hdec, Prod.mk.injEq] at h; cases h.2
        | ok t =>
          simp only [readAll, hdec, Prod.mk.injEq] at h
          rw [← h.1]

/-- C8: on every successful `ReadAll` call, when the format is the default
every returned message is a typed SenML record, and when the format is any
other value every returned message is the generic mapping built from its
row, whose `payload` field is the decoded JSON payload passed through the
flattening transform. -/
theorem readAll_message_shape {π : Type} (unmarshal : String → Except GoErr π)
    (parseFlat : π → π) (chanID : String) (rpm : PageMetadata)
    (db : DriverInput) (rows : List DbRow) (pg : MessagesPage π)
    (hsel : db.selectOutcome = Except.ok rows)
    (h : readAll unmarshal parseFlat chanID rpm db = (pg, none)) :
    ((rpm.Format = "" ∨ rpm.Format = defTable) →
      ∀ m ∈ pg.messages, ∃ s, m = Message.senml s) ∧
    ((rpm.Format ≠ "" ∧ rpm.Format ≠ defTable) →
      ∀ m ∈ pg.messages, ∃ r, r ∈ rows ∧ ∃ jm p,
        r.jsonScan = Except.ok jm ∧ unmarshal jm.payload = Except.ok p ∧
        m = Message.generic
          { id := jm.id, channel := jm.channel, created := jm.created
            subtopic := jm.subtopic, publisher := jm.publisher
            protocol := jm.protocol, payload := parseFlat p }) := by
  have hmsgs := readAll_success_messages unmarshal parseFlat chanID rpm db rows pg hsel h
  constructor
  · intro hfmt
    have hdt : (effectiveRpm rpm).Format = defTable := by
      rw [effectiveRpm_format]
      unfold effectiveFormat
      rcases hfmt with h1 | h1
      · rw [if_pos h1]
      · rw [h1]; simp
    rw [hdt] at hmsgs
    unfold decodeRows at hmsgs
    rw [if_pos rfl] at hmsgs
    exact (decodeSenmlRows_ok rows pg.messages hmsgs).2
  · intro hfmt
    have hdt : (effectiveRpm rpm).Format = rpm.Format := by
      rw [effectiveRpm_format]
      unfold effectiveFormat
      rw [if_neg hfmt.1]
    rw [hdt] at hmsgs
    unfold decodeRows at hmsgs
    rw [if_neg hfmt.2] at hmsgs
    exact (decodeJsonRows_ok unmarshal parseFlat rows pg.messages hmsgs).2

/-- C10: for every call where the count query executes successfully but
returns no rows, `ReadAll` reports a total of zero and returns the decoded
page without any error. -/
theorem readAll_count_no_rows {π : Type} (unmarshal : String → Except GoErr π)
    (parseFlat : π → π) (chanID : String) (rpm : PageMetadata)
    (db : DriverInput) (rows : List DbRow) (msgs : List (Message π))
    (hsel : db.selectOutcome = Except.ok rows)
    (hdec : decodeRows unmarshal parseFlat (effectiveRpm rpm).Format rows =
      Except.ok msgs)
    (hcount : db.countOutcome = Except.ok none) :
    readAll unmarshal parseFlat chanID rpm db =
      ({ pageMetadata := effectiveRpm rpm, total := 0, messages := msgs }, none) := by
  obtain ⟨so, co⟩ := db
  obtain rfl : so = Except.ok rows := hsel
  obtain rfl : co = Except.ok none := hcount
  simp only [readAll, hdec]

/-- Witness for `readAll_invalid_payload_fails` at a concrete
generic-format call whose single row carries the invalid payload. -/
theorem readAll_invalid_payload_fails_witness :
    ∃ e2, readAll unmarshalW id "ch" { PageMetadata.zero with Format := "json" }
      { selectOutcome := Except.ok [dbRowJsonEx]
        countOutcome := Except.ok (some (Except.ok 1)) } =
      (emptyPage Nat, some (GoErr.wrap errReadMessages e2)) ∧
      (emptyPage Nat).messages = [] :=
  readAll_invalid_payload_fails unmarshalW id "ch"
    { PageMetadata.zero with Format := "json" }
    { selectOutcome := Except.ok [dbRowJsonEx]
      countOutcome := Except.ok (some (Except.ok 1)) }
    [dbRowJsonEx] dbRowJsonEx jmEx (GoErr.base "invalid character")
    (by decide) (by decide) rfl (List.mem_cons_self _ _) rfl rfl

/-- Witness for `readAll_message_shape` at a concrete successful
default-format call. -/
theorem readAll_message_shape_witness :
    ((PageMetadata.zero.Format = "" ∨ PageMetadata.zero.Format = defTable) →
      ∀ m ∈ ((readAll (π := Nat) unmarshalW id "ch" PageMetadata.zero dbW).1).messages,
        ∃ s, m = Message.senml s) ∧
    ((PageMetadata.zero.Format ≠ "" ∧ PageMetadata.zero.Format ≠ defTable) →
      ∀ m ∈ ((readAll (π := Nat) unmarshalW id "ch" PageMetadata.zero dbW).1).messages,
        ∃ r, r ∈ [dbRowEx] ∧ ∃ jm p,
          r.jsonScan = Except.ok jm ∧ unmarshalW jm.payload = Except.ok p ∧
          m = Message.generic
            { id := jm.id, channel := jm.channel, created := jm.created
              subtopic := jm.subtopic, publisher := jm.publisher
              protocol := jm.protocol, payload := id p }) :=
  readAll_message_shape unmarshalW id "ch" PageMetadata.zero dbW [dbRowEx]
    (readAll (π := Nat) unmarshalW id "ch" PageMetadata.zero dbW).1 rfl (by decide)

/-- Witness for `readAll_count_no_rows` at a concrete call whose count
result set is empty. -/
theorem readAll_count_no_rows_witness :
    readAll (π := Nat) unmarshalW id "ch" PageMetadata.zero
      { selectOutcome := Except.ok [dbRowEx], countOutcome := Except.ok none } =
      ({ pageMetadata := effectiveRpm PageMetadata.zero, total := 0
         messages := [Message.senml senmlMsgEx] }, none) :=
  readAll_count_no_rows unmarshalW id "ch" PageMetadata.zero
    { selectOutcome := Except.ok [dbRowEx], countOutcome := Except.ok none }
    [dbRowEx] [Message.senml senmlMsgEx] rfl rfl rfl

theorem readAll_success_total {π : Type} (unmarshal : String → Except GoErr π)
    (parseFlat : π → π) (chanID : String) (rpm : PageMetadata)
    (db : DriverInput) (rows : List DbRow) (t : Nat) (pg : MessagesPage π)
    (hsel : db.selectOutcome = Except.ok rows)
    (hcnt : db.countOutcome = Except.ok (some (Except.ok t)))
    (h : readAll unmarshal parseFlat chanID rpm db = (pg, none)) :
    pg.total = t := by
  obtain ⟨so, co⟩ := db
  obtain rfl : so = Except.ok rows := hsel
  obtain rfl : co = Except.ok (some (Except.ok t)) := hcnt
  cases hdec : decodeRows unmarshal parseFlat (effectiveRpm rpm).Format rows with
  | error e => simp only [readAll, hdec, Prod.mk.injEq] at h; cases h.2
  | ok msgs =>
    simp only [readAll, hdec, Prod.mk.injEq] at h
    rw [← h.1]

/-- C9: on every successful `ReadAll` call over the database model, the
number of returned messages is at most the requested limit (the database
enforces `LIMIT`), and the returned total count — the number of rows
matching the filter, independent of limit and offset — is at least the
number of returned messages. -/
theorem readAllDb_page_bounds {π : Type} (unmarshal : String → Except GoErr π)
    (parseFlat : π → π) (chanID : String) (rpm : PageMetadata)
    (keys : List String) (table : List Row) (pg : MessagesPage π)
    (h : readAllDb unmarshal parseFlat chanID rpm keys table = (pg, none)) :
    pg.messages.length ≤ rpm.Limit ∧ pg.messages.length ≤ pg.total := by
  have hmsgs := readAll_success_messages unmarshal parseFlat chanID rpm
    { selectOutcome := Except.ok ((runSelect table chanID rpm keys).map rowToDbRow)
      countOutcome := Except.ok (some (Except.ok (runCount table chanID rpm keys))) }
    ((runSelect table chanID rpm keys).map rowToDbRow) pg rfl h
  have htot : pg.total = runCount table chanID rpm keys :=
    readAll_success_total unmarshal parseFlat chanID rpm
      { selectOutcome := Except.ok ((runSelect table chanID rpm keys).map rowToDbRow)
        countOutcome := Except.ok (some (Except.ok (runCount table chanID rpm keys))) }
      ((runSelect table chanID rpm keys).map rowToDbRow)
      (runCount table chanID rpm keys) pg rfl rfl h
  have hlen : pg.messages.length = (runSelect table chanID rpm keys).length := by
    unfold decodeRows at hmsgs
    split at hmsgs
    · rw [(decodeSenmlRows_ok _ _ hmsgs).1, List.length_map]
    · rw [(decodeJsonRows_ok _ _ _ _ hmsgs).1, List.length_map]
  have h1 : (runSelect table chanID rpm keys).length ≤ rpm.Limit := by
    unfold runSelect
    rw [List.length_take]
    exact Nat.min_le_left _ _
  have h2 : (runSelect table chanID rpm keys).length ≤
      runCount table chanID rpm keys := by
    unfold runSelect runCount
    rw [List.length_take, List.length_drop, sortDesc_length]
    omega
  exact ⟨hlen ▸ h1, htot ▸ hlen ▸ h2⟩

/-- Witness for `readAllDb_page_bounds` at a concrete one-row table. -/
theorem readAllDb_page_bounds_witness :
    ((readAllDb (π := Nat) unmarshalW id "ch" rpmLimW ["limit"] [rowW]).1).messages.length ≤
      rpmLimW.Limit ∧
    ((readAllDb (π := Nat) unmarshalW id "ch" rpmLimW ["limit"] [rowW]).1).messages.length ≤
      ((readAllDb (π := Nat) unmarshalW id "ch" rpmLimW ["limit"] [rowW]).1).total :=
  readAllDb_page_bounds unmarshalW id "ch" rpmLimW ["limit"] [rowW]
    (readAllDb (π := Nat) unmarshalW id "ch" rpmLimW ["limit"] [rowW]).1 (by decide)
